import Mathlib

/-!
Shallow embedding of the usage accounting ledger of the Mochat backend
(`backend/app/services/usage_service.py`, `backend/app/db/models.py`,
`backend/app/services/usage_reconcile_service.py`).

The relational store is modelled as an explicit `DB` state holding the rows of
the three ledger tables plus the `users` table; every service method becomes a
pure function threading that state.  The wall clock (`date.today()` /
`datetime.utcnow()`) is injected as a `Clock` value.  Python `datetime` values
are modelled as a (day, time-of-day) pair; only the day component is ever
compared or extracted by the code under study.
-/

set_option autoImplicit false

namespace Mochat

/-- A timestamp: calendar day plus an opaque time-of-day.  `date()` projects
the day, mirroring how the Python code only ever extracts `.date()` from a
`datetime`. -/
structure DTime where
  day : Int
  tod : Nat
deriving DecidableEq

/-- `datetime.date(t)`: the calendar-day projection. -/
def DTime.date (t : DTime) : Int := t.day

/-- Injected clock: `date.today()` and `datetime.utcnow()`. -/
structure Clock where
  today : Int
  now : DTime
deriving DecidableEq

/-- Row of the `users` table (only the fields the ledger reads). -/
structure UserRow where
  id : Nat
  username : String
  email : String
  role : String
  tier : String
deriving DecidableEq

/-- Row of the `usage_events` table (`UsageEvent` model). -/
structure EventRow where
  id : Nat
  user_id : Nat
  action : String
  status : String
  request_id : String
  session_id : Option Nat
  amount : Int
  error_code : Option String
  source : String
  occurred_at : DTime
  created_at : DTime
deriving DecidableEq

/-- Row of the `usage_daily_aggregates` table (`UsageDailyAggregate` model),
primary key `(stat_date, user_id, action, status)`. -/
structure AggRow where
  stat_date : Int
  user_id : Nat
  action : String
  status : String
  count : Int
  updated_at : DTime
deriving DecidableEq

/-- Row of the `user_usages` table (`UserUsage` model). -/
structure UsageRow where
  id : Nat
  user_id : Nat
  chat_count : Int
  image_count : Int
  reset_date : Int
  total_chat_count : Int
  total_image_count : Int
  total_ppt_count : Int
  last_used_at : Option DTime
  last_chat_at : Option DTime
  last_image_at : Option DTime
  last_ppt_at : Option DTime
deriving DecidableEq

/-- The relational store: the three ledger tables, the users table, and the
autoincrement counters for the two integer primary keys the ledger assigns. -/
structure DB where
  users : List UserRow
  events : List EventRow
  aggregates : List AggRow
  usages : List UsageRow
  nextEventId : Nat
  nextUsageId : Nat
deriving DecidableEq

/-- One entry of the module-level `TIER_LIMITS` table. -/
structure TierInfo where
  chat_limit : Int
  image_limit : Int
  name_zh : String
  name_en : String
deriving DecidableEq

/-- `TIER_LIMITS` from `usage_service.py`. -/
def TIER_LIMITS : List (String × TierInfo) :=
  [ ("free",  ⟨50, 2, "普通用户", "Free User"⟩),
    ("pro",   ⟨200, 5, "高级用户", "Pro User"⟩),
    ("plus",  ⟨500, 10, "超级用户", "Plus User"⟩),
    ("admin", ⟨-1, -1, "管理员", "Admin"⟩) ]

/-- `UsageService.get_tier_limits`: table lookup defaulting unknown tiers to
`free`. -/
def get_tier_limits (tier : String) : TierInfo :=
  match TIER_LIMITS.find? (fun p => p.1 == tier) with
  | some p => p.2
  | none => ⟨50, 2, "普通用户", "Free User"⟩

/-- `UsageService.ACTIONS`. -/
def ACTIONS : List String := ["chat", "image", "ppt"]

/-- `UsageService.STATUSES`. -/
def STATUSES : List String := ["success", "failed"]

/-- ASCII whitespace (the characters Python's `.strip()` removes from the
values at hand). -/
def isSpaceChar (c : Char) : Bool :=
  c == ' ' || c == '\t' || c == '\n' || c == '\r'

/-- `str.lower()`, character-wise. -/
def lowerStr (s : String) : String := String.mk (s.data.map Char.toLower)

/-- `str.strip()`: drop leading and trailing whitespace. -/
def trimStr (s : String) : String :=
  String.mk
    (((s.data.dropWhile isSpaceChar).reverse.dropWhile isSpaceChar).reverse)

/-- Python `(s or "").lower().strip()`. -/
def normalizeTok (s : String) : String := trimStr (lowerStr s)

/-- Python `user.tier or "free"`: an absent tier is modelled as `""`. -/
def tierOf (tier : String) : String := if tier = "" then "free" else tier

/-- Replace every `user_usages` row whose primary key `id` matches the given
row (the ORM mutation of a fetched row followed by `flush`). -/
def updateUsageRow (db : DB) (u : UsageRow) : DB :=
  { db with usages := db.usages.map (fun x => if x.id = u.id then u else x) }

/-- `UsageService.get_or_create_usage`: fetch the user's `UserUsage` row or
create a fresh one with `reset_date = today` and zeroed counters. -/
def get_or_create_usage (db : DB) (today : Int) (uid : Nat) : UsageRow × DB :=
  match db.usages.find? (fun u => u.user_id == uid) with
  | some u => (u, db)
  | none =>
      let u : UsageRow :=
        { id := db.nextUsageId, user_id := uid, chat_count := 0, image_count := 0,
          reset_date := today, total_chat_count := 0, total_image_count := 0,
          total_ppt_count := 0, last_used_at := none, last_chat_at := none,
          last_image_at := none, last_ppt_at := none }
      (u, { db with usages := db.usages ++ [u], nextUsageId := db.nextUsageId + 1 })

/-- `UsageService.check_and_reset_daily`: lazy daily reset — when
`reset_date < today` zero the two daily counters and stamp `reset_date`. -/
def check_and_reset_daily (db : DB) (today : Int) (u : UsageRow) : UsageRow × DB :=
  if u.reset_date < today then
    let u2 := { u with chat_count := 0, image_count := 0, reset_date := today }
    (u2, updateUsageRow db u2)
  else (u, db)

/-- Whether the character list `p` is a prefix of `l`. -/
def listStartsWith : List Char → List Char → Bool
  | [], _ => true
  | _ :: _, [] => false
  | p :: ps, x :: xs => p == x && listStartsWith ps xs

/-- Whether the character list `pat` occurs inside `l`. -/
def listContainsSub (l pat : List Char) : Bool :=
  match l with
  | [] => decide (pat = [])
  | _ :: xs => listStartsWith pat l || listContainsSub xs pat

/-- Whether `pat` occurs as a substring of `s` (used to state that the denial
message embeds the numeric limit, and to model SQL `ILIKE '%q%'`). -/
def strContains (s pat : String) : Bool := listContainsSub s.data pat.data

/-- `UsageService.check_chat_limit`. -/
def check_chat_limit (db : DB) (clock : Clock) (user : UserRow) :
    (Bool × String) × DB :=
  if user.role = "admin" then ((true, ""), db)
  else
    let g := get_or_create_usage db clock.today user.id
    let r := check_and_reset_daily g.2 clock.today g.1
    let chat_limit := (get_tier_limits (tierOf user.tier)).chat_limit
    if r.1.chat_count ≥ chat_limit then
      ((false, "今日对话次数已用完（" ++ toString chat_limit ++ "/" ++
        toString chat_limit ++ "），请明天再试或升级账户"), r.2)
    else ((true, ""), r.2)

/-- `UsageService.check_image_limit`. -/
def check_image_limit (db : DB) (clock : Clock) (user : UserRow) :
    (Bool × String) × DB :=
  if user.role = "admin" then ((true, ""), db)
  else
    let g := get_or_create_usage db clock.today user.id
    let r := check_and_reset_daily g.2 clock.today g.1
    let image_limit := (get_tier_limits (tierOf user.tier)).image_limit
    if r.1.image_count ≥ image_limit then
      ((false, "今日生图次数已用完（" ++ toString image_limit ++ "/" ++
        toString image_limit ++ "），请明天再试或升级账户"), r.2)
    else ((true, ""), r.2)

/-! ### The recorder (`UsageService.record_usage_event`) -/

/-- Errors raised by `record_usage_event`: `ValueError` for validation, and the
storage layer's unique-constraint (integrity) error from `flush`. -/
inductive RecErr where
  | invalidInput : String → RecErr
  | uniqueViolation : RecErr
deriving DecidableEq

/-- The dictionary returned by `record_usage_event`. -/
structure RecordResult where
  recorded : Bool
  duplicated : Bool
  event_id : Nat
  request_id : String
deriving DecidableEq

/-- Keyword arguments of `record_usage_event` with their Python defaults. -/
structure RecordArgs where
  action : String
  status : String
  request_id : String
  user : Option UserRow := none
  user_id : Option Nat := none
  session_id : Option Nat := none
  amount : Int := 1
  error_code : Option String := none
  source : String := "backend"
  occurred_at : Option DTime := none
deriving DecidableEq

/-- `user.id if user else user_id`, collapsed with the falsy check
`if not resolved_user_id`: a missing identity is represented as `0`, exactly
the values Python rejects (`None` and `0` are both falsy). -/
def resolvedUserId (a : RecordArgs) : Nat :=
  match a.user with
  | some u => u.id
  | none => a.user_id.getD 0

/-- `max(1, int(amount or 1))`. -/
def safeAmount (amount : Int) : Int :=
  max 1 (if amount = 0 then 1 else amount)

/-- The duplicate-lookup predicate on `(user_id, action, request_id)`. -/
def eventKeyPred (uid : Nat) (act rid : String) (e : EventRow) : Bool :=
  e.user_id == uid && e.action == act && e.request_id == rid

/-- `db.add(event); await db.flush()`: the storage layer raises an integrity
error when the `(user_id, action, request_id)` unique constraint is violated,
otherwise appends the row and advances the autoincrement counter. -/
def insertEventChecked (db : DB) (e : EventRow) : Except RecErr DB :=
  if db.events.any (eventKeyPred e.user_id e.action e.request_id) then
    .error .uniqueViolation
  else
    .ok { db with events := db.events ++ [e], nextEventId := db.nextEventId + 1 }

/-- Upsert of the `(stat_date, user_id, action, status)` daily-aggregate row:
increment the fetched row's `count`, or insert a fresh row with
`count = amt`. -/
def upsertAggRows (d : Int) (uid : Nat) (act st : String) (amt : Int) (t : DTime) :
    List AggRow → List AggRow
  | [] => [{ stat_date := d, user_id := uid, action := act, status := st,
             count := amt, updated_at := t }]
  | g :: rest =>
      if g.stat_date = d ∧ g.user_id = uid ∧ g.action = act ∧ g.status = st then
        { g with count := g.count + amt, updated_at := t } :: rest
      else g :: upsertAggRows d uid act st amt t rest

/-- The aggregate upsert lifted to the whole store. -/
def upsertAggregate (db : DB) (d : Int) (uid : Nat) (act st : String)
    (amt : Int) (t : DTime) : DB :=
  { db with aggregates := upsertAggRows d uid act st amt t db.aggregates }

/-- The `success`-branch mutation of the fetched `UserUsage` row: bump the
action-specific daily counter and lifetime total, stamp the action-specific
`last_*_at`, then stamp `last_used_at`. -/
def applyIncrement (u : UsageRow) (na : String) (amt : Int) (t : DTime) : UsageRow :=
  let u1 :=
    if na = "chat" then
      { u with chat_count := u.chat_count + amt,
               total_chat_count := u.total_chat_count + amt,
               last_chat_at := some t }
    else if na = "image" then
      { u with image_count := u.image_count + amt,
               total_image_count := u.total_image_count + amt,
               last_image_at := some t }
    else if na = "ppt" then
      { u with total_ppt_count := u.total_ppt_count + amt,
               last_ppt_at := some t }
    else u
  { u1 with last_used_at := some t }

/-- `is_admin_user`: taken from the passed `user` object when present,
otherwise read from the `users` table. -/
def resolveIsAdmin (db : DB) (a : RecordArgs) (uid : Nat) : Bool :=
  match a.user with
  | some u => u.role == "admin"
  | none =>
      match db.users.find? (fun u => u.id == uid) with
      | some u => u.role == "admin"
      | none => false

/-- Body of `record_usage_event`, with the two read points of the shared
database handle made explicit: `dbLookup` is the state the duplicate lookup
observes, `db` the state every later statement operates on.  In the sequential
semantics both are the same state (`record_usage_event` below); they differ
exactly when a racing retry commits between the lookup and the insert
(`record_usage_event_afterRace`). -/
def record_usage_event_core (dbLookup db : DB) (clock : Clock) (a : RecordArgs) :
    Except RecErr (RecordResult × DB) :=
  let na := normalizeTok a.action
  let ns := normalizeTok a.status
  if na ∉ ACTIONS then .error (.invalidInput ("Unsupported usage action: " ++ a.action))
  else if ns ∉ STATUSES then .error (.invalidInput ("Unsupported usage status: " ++ a.status))
  else if a.request_id = "" then .error (.invalidInput "request_id is required")
  else if resolvedUserId a = 0 then .error (.invalidInput "user or user_id is required")
  else
    let uid := resolvedUserId a
    let safe_amount := safeAmount a.amount
    let event_time := a.occurred_at.getD clock.now
    match dbLookup.events.find? (eventKeyPred uid na a.request_id) with
    | some dup =>
        .ok ({ recorded := false, duplicated := true, event_id := dup.id,
               request_id := a.request_id }, db)
    | none =>
        let ev : EventRow :=
          { id := db.nextEventId, user_id := uid, action := na, status := ns,
            request_id := a.request_id, session_id := a.session_id,
            amount := safe_amount, error_code := a.error_code, source := a.source,
            occurred_at := event_time, created_at := clock.now }
        match insertEventChecked db ev with
        | .error e => .error e
        | .ok db1 =>
            let db2 := upsertAggregate db1 event_time.date uid na ns safe_amount event_time
            let db3 :=
              if ns = "success" ∧ resolveIsAdmin db a uid = false then
                let g := get_or_create_usage db2 clock.today uid
                let r := check_and_reset_daily g.2 clock.today g.1
                updateUsageRow r.2 (applyIncrement r.1 na safe_amount event_time)
              else db2
            .ok ({ recorded := true, duplicated := false, event_id := ev.id,
                   request_id := a.request_id }, db3)

/-- `UsageService.record_usage_event` in its sequential semantics: lookup and
write observe the same state. -/
def record_usage_event (db : DB) (clock : Clock) (a : RecordArgs) :
    Except RecErr (RecordResult × DB) :=
  record_usage_event_core db db clock a

/-- A raw committed insert of another transaction's event row (the racing
retry that wins the race). -/
def rawInsertEvent (db : DB) (e : EventRow) : DB :=
  { db with events := db.events ++ [e], nextEventId := db.nextEventId + 1 }

/-- `record_usage_event` in the documented race: the duplicate lookup runs
against `db`, then the racing retry's row `racer` commits, and every later
statement observes the store with `racer` present. -/
def record_usage_event_afterRace (racer : EventRow) (db : DB) (clock : Clock)
    (a : RecordArgs) : Except RecErr (RecordResult × DB) :=
  record_usage_event_core db (rawInsertEvent db racer) clock a

/-- Transaction semantics of one `record` call: a committed result replaces
the store, a raised error rolls everything back. -/
def commitTx (db : DB) (r : Except RecErr (RecordResult × DB)) : DB :=
  match r with
  | .ok p => p.2
  | .error _ => db

/-- Total `count`-mass a list of aggregate rows stores under one
`(stat_date, user_id, action, status)` key. -/
def aggRowsTotal (rows : List AggRow) (d : Int) (uid : Nat) (act st : String) : Int :=
  rows.foldr
    (fun g s =>
      (if g.stat_date = d ∧ g.user_id = uid ∧ g.action = act ∧ g.status = st
       then g.count else 0) + s) 0

/-- Total `count`-mass the aggregate table stores under one
`(stat_date, user_id, action, status)` key (observable used to state the
"exactly one increment" properties). -/
def aggTotal (db : DB) (d : Int) (uid : Nat) (act st : String) : Int :=
  aggRowsTotal db.aggregates d uid act st

/-! ### The reporting reader (`list_usage_events` / `export_usage_events`) -/

/-- Lexicographic order on timestamps, `x ≤ y`. -/
def dtLeB (x y : DTime) : Bool :=
  x.day < y.day || (x.day == y.day && x.tod ≤ y.tod)

/-- `ORDER BY occurred_at DESC, id DESC`: `x` sorts no later than `y`. -/
def descCmp (x y : EventRow × UserRow) : Bool :=
  y.1.occurred_at.day < x.1.occurred_at.day ||
    (y.1.occurred_at.day == x.1.occurred_at.day &&
      (y.1.occurred_at.tod < x.1.occurred_at.tod ||
        (y.1.occurred_at.tod == x.1.occurred_at.tod && y.1.id ≤ x.1.id)))

/-- Insert into a list sorted by the comparator `r`. -/
def insertBy {α : Type} (r : α → α → Bool) (x : α) : List α → List α
  | [] => [x]
  | y :: ys => if r x y then x :: y :: ys else y :: insertBy r x ys

/-- Insertion sort by the comparator `r` (models the SQL `ORDER BY`). -/
def sortBy {α : Type} (r : α → α → Bool) : List α → List α
  | [] => []
  | x :: xs => insertBy r x (sortBy r xs)

/-- Optional filters of `list_usage_events`; a missing string filter is `""`
(Python `None` and `""` are both falsy under `(x or "")`). -/
structure EventFilters where
  start_at : Option DTime := none
  end_at : Option DTime := none
  action : String := ""
  status : String := ""
  q : String := ""
  user_id : Option Nat := none
deriving DecidableEq

/-- One item dict of the `list_usage_events` response. -/
structure EventItem where
  id : Nat
  user_id : Nat
  username : String
  email : String
  action : String
  status : String
  request_id : String
  session_id : Option Nat
  amount : Int
  error_code : Option String
  source : String
  occurred_at : DTime
  created_at : DTime
deriving DecidableEq

/-- The paginated response of `list_usage_events`. -/
structure ListResult where
  total : Nat
  page : Int
  page_size : Int
  items : List EventItem
deriving DecidableEq

/-- The `WHERE` clause of `list_usage_events`: each filter applies only when
the Python value is truthy. -/
def eventRowPasses (f : EventFilters) (p : EventRow × UserRow) : Bool :=
  (f.user_id.getD 0 == 0 || p.1.user_id == f.user_id.getD 0) &&
  (normalizeTok f.action == "" || p.1.action == normalizeTok f.action) &&
  (normalizeTok f.status == "" || p.1.status == normalizeTok f.status) &&
  (match f.start_at with | none => true | some t => dtLeB t p.1.occurred_at) &&
  (match f.end_at with | none => true | some t => dtLeB p.1.occurred_at t) &&
  (f.q == "" || strContains (lowerStr p.2.username) (lowerStr (trimStr f.q)) ||
    strContains (lowerStr p.2.email) (lowerStr (trimStr f.q)))

/-- Projection of one joined row into the response dict. -/
def toEventItem (p : EventRow × UserRow) : EventItem :=
  { id := p.1.id, user_id := p.1.user_id, username := p.2.username,
    email := p.2.email, action := p.1.action, status := p.1.status,
    request_id := p.1.request_id, session_id := p.1.session_id,
    amount := p.1.amount, error_code := p.1.error_code, source := p.1.source,
    occurred_at := p.1.occurred_at, created_at := p.1.created_at }

/-- `UsageService.list_usage_events`: inner join of the ledger to `users`,
filters, total count, and an `offset`/`limit` page of the
`(occurred_at desc, id desc)` ordering.  `page_size` is clamped to
`min(max(1, page_size), 500)`. -/
def list_usage_events (db : DB) (f : EventFilters) (page page_size : Int) :
    ListResult :=
  let safe_page := max 1 page
  let safe_page_size := min (max 1 page_size) 500
  let offset := (safe_page - 1) * safe_page_size
  let joined := db.events.filterMap (fun e =>
    (db.users.find? (fun u => u.id == e.user_id)).map (fun u => (e, u)))
  let filtered := joined.filter (eventRowPasses f)
  let sorted := sortBy descCmp filtered
  { total := filtered.length, page := safe_page, page_size := safe_page_size,
    items := ((sorted.drop offset.toNat).take safe_page_size.toNat).map toEventItem }

/-- `UsageService.export_usage_events`: the CSV export, delegating to
`list_usage_events` with `page=1, page_size=100000` and no `user_id` filter. -/
def export_usage_events (db : DB) (start_at end_at : Option DTime)
    (action status q : String) : List EventItem :=
  (list_usage_events db
    { start_at := start_at, end_at := end_at, action := action,
      status := status, q := q, user_id := none } 1 100000).items

/-! ### The reconciliation auditor (`usage_reconcile_service.py`) -/

/-- Grouping key `(date(occurred_at) / stat_date, user_id, action, status)` of
the per-day check. -/
structure AggKey where
  stat_date : Int
  user_id : Nat
  action : String
  status : String
deriving DecidableEq

/-- The grouping key of a ledger event. -/
def eventKeyOf (e : EventRow) : AggKey :=
  ⟨e.occurred_at.date, e.user_id, e.action, e.status⟩

/-- The grouping key of an aggregate row. -/
def aggKeyOf (g : AggRow) : AggKey :=
  ⟨g.stat_date, g.user_id, g.action, g.status⟩

/-- One entry of the `user_total_mismatches` list. -/
structure TotalMismatch where
  user_id : Nat
  username : Option String
  metric : String
  expected : Int
  actual : Int
deriving DecidableEq

/-- One entry of the `aggregate_mismatches` list. -/
structure AggMismatch where
  stat_date : Int
  user_id : Nat
  username : Option String
  action : String
  status : String
  events_count : Int
  aggregate_count : Int
deriving DecidableEq

/-- The drift report (`generated_at` omitted: a wall-clock string the checks
never read). The `…_count` fields are the summary counts, computed before the
two lists are capped at 200 entries. -/
structure ReconReport where
  users_checked : Nat
  user_total_mismatch_count : Nat
  aggregate_mismatch_count : Nat
  user_total_mismatches : List TotalMismatch
  aggregate_mismatches : List AggMismatch
deriving DecidableEq

/-- The users `reconcile` examines: all of them, or one when the `user_id`
argument is truthy. -/
def reconUsers (db : DB) (uf : Option Nat) : List UserRow :=
  match uf with
  | some uid => if uid = 0 then db.users else db.users.filter (fun u => u.id == uid)
  | none => db.users

/-- `event_map[key]`: `Σ UsageEvent.amount` over the examined users' events
grouped by key (an absent key sums to 0). -/
def evSum (db : DB) (ids : List Nat) (k : AggKey) : Int :=
  db.events.foldr
    (fun e s => (if e.user_id ∈ ids ∧ eventKeyOf e = k then e.amount else 0) + s) 0

/-- `aggregate_map[key]`: `Σ UsageDailyAggregate.count` over the examined
users' aggregate rows grouped by key (an absent key sums to 0). -/
def agSum (db : DB) (ids : List Nat) (k : AggKey) : Int :=
  db.aggregates.foldr
    (fun g s => (if g.user_id ∈ ids ∧ aggKeyOf g = k then g.count else 0) + s) 0

/-- `set(event_map.keys()) | set(aggregate_map.keys())` (the source also sorts
this set; the order does not affect membership or the counts proved below). -/
def reconKeys (db : DB) (ids : List Nat) : List AggKey :=
  (((db.events.filter (fun e => e.user_id ∈ ids)).map eventKeyOf) ++
    ((db.aggregates.filter (fun g => g.user_id ∈ ids)).map aggKeyOf)).dedup

/-- The keys the per-day check reports as mismatched. -/
def aggregateMismatchKeys (db : DB) (ids : List Nat) : List AggKey :=
  (reconKeys db ids).filter (fun k => evSum db ids k ≠ agSum db ids k)

/-- `username` of an examined user (`user_map.get(uid, {}).get("username")`). -/
def reconUsername (users : List UserRow) (uid : Nat) : Option String :=
  (users.find? (fun u => u.id == uid)).map (·.username)

/-- Expected lifetime total of one user and action:
`Σ DailyAggregate.count` with `status = "success"`. -/
def successTotal (db : DB) (uid : Nat) (act : String) : Int :=
  db.aggregates.foldr
    (fun g s =>
      (if g.user_id = uid ∧ g.status = "success" ∧ g.action = act then g.count else 0) + s) 0

/-- The lifetime-total mismatch entries of one examined user. -/
def userTotalEntries (db : DB) (users : List UserRow) (uid : Nat) :
    List TotalMismatch :=
  match users.find? (fun u => u.id == uid) with
  | some u =>
      if u.role = "admin" then []
      else
        let usage := db.usages.find? (fun w => w.user_id == uid)
        let actualChat := (usage.map (·.total_chat_count)).getD 0
        let actualImage := (usage.map (·.total_image_count)).getD 0
        let actualPpt := (usage.map (·.total_ppt_count)).getD 0
        let name := some u.username
        (if successTotal db uid "chat" ≠ actualChat then
          [⟨uid, name, "total_chat_count", successTotal db uid "chat", actualChat⟩] else []) ++
        (if successTotal db uid "image" ≠ actualImage then
          [⟨uid, name, "total_image_count", successTotal db uid "image", actualImage⟩] else []) ++
        (if successTotal db uid "ppt" ≠ actualPpt then
          [⟨uid, name, "total_ppt_count", successTotal db uid "ppt", actualPpt⟩] else [])
  | none => []

/-- `UsageReconcileService.reconcile`: the two read-only drift checks.  The
function's type already exhibits that it never writes the store: it consumes a
`DB` and produces only a report. -/
def reconcile (db : DB) (uf : Option Nat) : ReconReport :=
  let users := reconUsers db uf
  let ids := users.map (·.id)
  if ids.isEmpty then
    { users_checked := 0, user_total_mismatch_count := 0,
      aggregate_mismatch_count := 0, user_total_mismatches := [],
      aggregate_mismatches := [] }
  else
    let totals := (ids.map (userTotalEntries db users)).flatten
    let aggMis := (aggregateMismatchKeys db ids).map (fun k =>
      { stat_date := k.stat_date, user_id := k.user_id,
        username := reconUsername users k.user_id, action := k.action,
        status := k.status, events_count := evSum db ids k,
        aggregate_count := agSum db ids k : AggMismatch })
    { users_checked := ids.length,
      user_total_mismatch_count := totals.length,
      aggregate_mismatch_count := aggMis.length,
      user_total_mismatches := totals.take 200,
      aggregate_mismatches := aggMis.take 200 }

/-! ### Characterization of the committed effect of one `record` call -/

/-- The row `record_usage_event` inserts on the non-duplicate path. -/
def newEventRow (db : DB) (clock : Clock) (a : RecordArgs) : EventRow :=
  { id := db.nextEventId, user_id := resolvedUserId a,
    action := normalizeTok a.action, status := normalizeTok a.status,
    request_id := a.request_id, session_id := a.session_id,
    amount := safeAmount a.amount, error_code := a.error_code,
    source := a.source, occurred_at := a.occurred_at.getD clock.now,
    created_at := clock.now }

/-- The event-and-aggregate part of the committed store: the inserted ledger
row plus the aggregate upsert (applied on every non-duplicate path). -/
def recordBase (db : DB) (clock : Clock) (a : RecordArgs) : DB :=
  upsertAggregate
    { db with events := db.events ++ [newEventRow db clock a],
              nextEventId := db.nextEventId + 1 }
    (a.occurred_at.getD clock.now).date (resolvedUserId a)
    (normalizeTok a.action) (normalizeTok a.status) (safeAmount a.amount)
    (a.occurred_at.getD clock.now)

/-- The summary upsert of the `success`/non-admin branch, applied on top of a
store `db2`. -/
def recordSummaryUpsert (db2 : DB) (today : Int) (uid : Nat) (na : String)
    (amt : Int) (t : DTime) : DB :=
  updateUsageRow
    (check_and_reset_daily (get_or_create_usage db2 today uid).2 today
      (get_or_create_usage db2 today uid).1).2
    (applyIncrement
      (check_and_reset_daily (get_or_create_usage db2 today uid).2 today
        (get_or_create_usage db2 today uid).1).1 na amt t)

/-- The store committed by one validated, non-duplicate `record` call. -/
def recordCommit (db : DB) (clock : Clock) (a : RecordArgs) : DB :=
  if normalizeTok a.status = "success" ∧
      resolveIsAdmin db a (resolvedUserId a) = false then
    recordSummaryUpsert (recordBase db clock a) clock.today (resolvedUserId a)
      (normalizeTok a.action) (safeAmount a.amount) (a.occurred_at.getD clock.now)
  else recordBase db clock a

theorem any_eq_false_of_find?_eq_none {α : Type} (p : α → Bool) (l : List α)
    (h : l.find? p = none) : l.any p = false :=
  List.any_eq_false.mpr (fun x hx => List.find?_eq_none.mp h x hx)

theorem find?_append_of_none {α : Type} (p : α → Bool) (l1 l2 : List α)
    (h : l1.find? p = none) : (l1 ++ l2).find? p = l2.find? p := by
  rw [List.find?_append, h]
  rfl

@[simp] theorem updateUsageRow_events (db : DB) (u : UsageRow) :
    (updateUsageRow db u).events = db.events := rfl

@[simp] theorem updateUsageRow_aggregates (db : DB) (u : UsageRow) :
    (updateUsageRow db u).aggregates = db.aggregates := rfl

@[simp] theorem updateUsageRow_users (db : DB) (u : UsageRow) :
    (updateUsageRow db u).users = db.users := rfl

@[simp] theorem upsertAggregate_events (db : DB) (d : Int) (uid : Nat)
    (act st : String) (amt : Int) (t : DTime) :
    (upsertAggregate db d uid act st amt t).events = db.events := rfl

@[simp] theorem upsertAggregate_usages (db : DB) (d : Int) (uid : Nat)
    (act st : String) (amt : Int) (t : DTime) :
    (upsertAggregate db d uid act st amt t).usages = db.usages := rfl

@[simp] theorem upsertAggregate_users (db : DB) (d : Int) (uid : Nat)
    (act st : String) (amt : Int) (t : DTime) :
    (upsertAggregate db d uid act st amt t).users = db.users := rfl

@[simp] theorem upsertAggregate_nextUsageId (db : DB) (d : Int) (uid : Nat)
    (act st : String) (amt : Int) (t : DTime) :
    (upsertAggregate db d uid act st amt t).nextUsageId = db.nextUsageId := rfl

@[simp] theorem get_or_create_usage_events (db : DB) (t : Int) (uid : Nat) :
    (get_or_create_usage db t uid).2.events = db.events := by
  unfold get_or_create_usage
  cases db.usages.find? (fun u => u.user_id == uid) <;> rfl

@[simp] theorem get_or_create_usage_aggregates (db : DB) (t : Int) (uid : Nat) :
    (get_or_create_usage db t uid).2.aggregates = db.aggregates := by
  unfold get_or_create_usage
  cases db.usages.find? (fun u => u.user_id == uid) <;> rfl

@[simp] theorem check_and_reset_daily_events (db : DB) (t : Int) (u : UsageRow) :
    (check_and_reset_daily db t u).2.events = db.events := by
  unfold check_and_reset_daily
  split <;> rfl

@[simp] theorem check_and_reset_daily_aggregates (db : DB) (t : Int) (u : UsageRow) :
    (check_and_reset_daily db t u).2.aggregates = db.aggregates := by
  unfold check_and_reset_daily
  split <;> rfl

theorem recordCommit_events (db : DB) (clock : Clock) (a : RecordArgs) :
    (recordCommit db clock a).events = db.events ++ [newEventRow db clock a] := by
  unfold recordCommit recordSummaryUpsert recordBase
  split <;> simp

theorem recordCommit_aggregates (db : DB) (clock : Clock) (a : RecordArgs) :
    (recordCommit db clock a).aggregates =
      upsertAggRows (a.occurred_at.getD clock.now).date (resolvedUserId a)
        (normalizeTok a.action) (normalizeTok a.status) (safeAmount a.amount)
        (a.occurred_at.getD clock.now) db.aggregates := by
  unfold recordCommit recordSummaryUpsert recordBase
  split <;> simp [upsertAggregate]

theorem recordCommit_usages_skip (db : DB) (clock : Clock) (a : RecordArgs)
    (h : ¬(normalizeTok a.status = "success" ∧
          resolveIsAdmin db a (resolvedUserId a) = false)) :
    (recordCommit db clock a).usages = db.usages := by
  unfold recordCommit recordBase
  rw [if_neg h]
  simp [upsertAggregate]

theorem record_core_dup (dbL db : DB) (clock : Clock) (a : RecordArgs)
    (dup : EventRow)
    (ha : normalizeTok a.action ∈ ACTIONS)
    (hs : normalizeTok a.status ∈ STATUSES)
    (hr : ¬a.request_id = "")
    (hu : ¬resolvedUserId a = 0)
    (hd : dbL.events.find? (eventKeyPred (resolvedUserId a)
            (normalizeTok a.action) a.request_id) = some dup) :
    record_usage_event_core dbL db clock a =
      .ok ({ recorded := false, duplicated := true, event_id := dup.id,
             request_id := a.request_id }, db) := by
  unfold record_usage_event_core
  rw [if_neg (not_not_intro ha), if_neg (not_not_intro hs), if_neg hr, if_neg hu]
  simp only [hd]

theorem record_core_ok (dbL db : DB) (clock : Clock) (a : RecordArgs)
    (ha : normalizeTok a.action ∈ ACTIONS)
    (hs : normalizeTok a.status ∈ STATUSES)
    (hr : ¬a.request_id = "")
    (hu : ¬resolvedUserId a = 0)
    (hnd : dbL.events.find? (eventKeyPred (resolvedUserId a)
            (normalizeTok a.action) a.request_id) = none)
    (hnc : db.events.any (eventKeyPred (resolvedUserId a)
            (normalizeTok a.action) a.request_id) = false) :
    record_usage_event_core dbL db clock a =
      .ok ({ recorded := true, duplicated := false, event_id := db.nextEventId,
             request_id := a.request_id }, recordCommit db clock a) := by
  unfold record_usage_event_core
  rw [if_neg (not_not_intro ha), if_neg (not_not_intro hs), if_neg hr, if_neg hu]
  simp only [hnd]
  simp only [insertEventChecked, hnc]
  simp only [Bool.false_eq_true, if_false]
  rfl

@[simp] theorem aggRowsTotal_nil (d : Int) (uid : Nat) (act st : String) :
    aggRowsTotal [] d uid act st = 0 := rfl

@[simp] theorem aggRowsTotal_cons (g : AggRow) (rows : List AggRow) (d : Int)
    (uid : Nat) (act st : String) :
    aggRowsTotal (g :: rows) d uid act st =
      (if g.stat_date = d ∧ g.user_id = uid ∧ g.action = act ∧ g.status = st
       then g.count else 0) + aggRowsTotal rows d uid act st := rfl

/-- The aggregate upsert adds exactly `amt` at its own key and leaves every
other key's total unchanged. -/
theorem aggRowsTotal_upsert (rows : List AggRow) (d : Int) (uid : Nat)
    (act st : String) (amt : Int) (t : DTime) (d' : Int) (uid' : Nat)
    (act' st' : String) :
    aggRowsTotal (upsertAggRows d uid act st amt t rows) d' uid' act' st' =
      aggRowsTotal rows d' uid' act' st' +
        (if d' = d ∧ uid' = uid ∧ act' = act ∧ st' = st then amt else 0) := by
  induction rows with
  | nil =>
      by_cases h : d' = d ∧ uid' = uid ∧ act' = act ∧ st' = st
      · obtain ⟨h1, h2, h3, h4⟩ := h
        subst h1; subst h2; subst h3; subst h4
        simp [upsertAggRows]
      · have h2 : ¬(d = d' ∧ uid = uid' ∧ act = act' ∧ st = st') := by
          intro hc
          exact h ⟨hc.1.symm, hc.2.1.symm, hc.2.2.1.symm, hc.2.2.2.symm⟩
        simp [upsertAggRows, h, h2]
  | cons g rest ih =>
      by_cases hg : g.stat_date = d ∧ g.user_id = uid ∧ g.action = act ∧ g.status = st
      · simp only [upsertAggRows, if_pos hg]
        by_cases hk : d' = d ∧ uid' = uid ∧ act' = act ∧ st' = st
        · have hgk : g.stat_date = d' ∧ g.user_id = uid' ∧ g.action = act' ∧ g.status = st' :=
            ⟨hg.1.trans hk.1.symm, hg.2.1.trans hk.2.1.symm,
              hg.2.2.1.trans hk.2.2.1.symm, hg.2.2.2.trans hk.2.2.2.symm⟩
          simp [hgk, hk]
          omega
        · have hgk : ¬(g.stat_date = d' ∧ g.user_id = uid' ∧ g.action = act' ∧ g.status = st') := by
            intro hc
            exact hk ⟨hc.1.symm.trans hg.1, hc.2.1.symm.trans hg.2.1,
              hc.2.2.1.symm.trans hg.2.2.1, hc.2.2.2.symm.trans hg.2.2.2⟩
          simp [hgk, hk]
      · simp only [upsertAggRows, if_neg hg]
        simp [ih]
        omega

@[simp] theorem recordBase_usages (db : DB) (clock : Clock) (a : RecordArgs) :
    (recordBase db clock a).usages = db.usages := by
  unfold recordBase; simp

@[simp] theorem recordBase_nextUsageId (db : DB) (clock : Clock) (a : RecordArgs) :
    (recordBase db clock a).nextUsageId = db.nextUsageId := by
  unfold recordBase; simp

@[simp] theorem applyIncrement_id (u : UsageRow) (na : String) (amt : Int)
    (t : DTime) : (applyIncrement u na amt t).id = u.id := by
  simp only [applyIncrement]
  split
  · rfl
  · split
    · rfl
    · split <;> rfl

/-- A validated `success`/non-admin `record` call for a user without a
`UserUsage` row appends exactly one fresh summary row, built from zeroed
counters, `reset_date = today`, and the action-specific increment. -/
theorem recordCommit_usages_fresh (db : DB) (clock : Clock) (a : RecordArgs)
    (hsn : normalizeTok a.status = "success")
    (hadm : resolveIsAdmin db a (resolvedUserId a) = false)
    (hfr : db.usages.find? (fun u => u.user_id == resolvedUserId a) = none)
    (hid : ∀ x ∈ db.usages, x.id ≠ db.nextUsageId) :
    (recordCommit db clock a).usages =
      db.usages ++ [applyIncrement
        { id := db.nextUsageId, user_id := resolvedUserId a, chat_count := 0,
          image_count := 0, reset_date := clock.today, total_chat_count := 0,
          total_image_count := 0, total_ppt_count := 0, last_used_at := none,
          last_chat_at := none, last_image_at := none, last_ppt_at := none }
        (normalizeTok a.action) (safeAmount a.amount)
        (a.occurred_at.getD clock.now)] := by
  unfold recordCommit
  rw [if_pos ⟨hsn, hadm⟩]
  unfold recordSummaryUpsert
  have hfind : (recordBase db clock a).usages.find?
      (fun u => u.user_id == resolvedUserId a) = none := by
    rw [recordBase_usages]; exact hfr
  unfold get_or_create_usage
  rw [hfind]
  simp only [recordBase_usages, recordBase_nextUsageId]
  unfold check_and_reset_daily
  rw [if_neg (lt_irrefl clock.today)]
  unfold updateUsageRow
  simp only [applyIncrement_id, List.map_append]
  congr 1
  · have : ∀ x ∈ db.usages,
        (if x.id = db.nextUsageId then
          applyIncrement
            { id := db.nextUsageId, user_id := resolvedUserId a, chat_count := 0,
              image_count := 0, reset_date := clock.today, total_chat_count := 0,
              total_image_count := 0, total_ppt_count := 0, last_used_at := none,
              last_chat_at := none, last_image_at := none, last_ppt_at := none }
            (normalizeTok a.action) (safeAmount a.amount)
            (a.occurred_at.getD clock.now)
         else x) = x := by
      intro x hx
      rw [if_neg (hid x hx)]
    calc db.usages.map _ = db.usages.map id := List.map_congr_left (by
            intro x hx
            simpa using this x hx)
      _ = db.usages := List.map_id db.usages
  · simp

/-! ### Fixtures for witnesses and counterexamples -/

/-- A non-admin `free`-tier user. -/
def wAlice : UserRow := ⟨1, "alice", "alice@example.com", "user", "free"⟩

/-- A fixed clock: day 100. -/
def wClock : Clock := ⟨100, ⟨100, 5⟩⟩

/-- An empty store holding only `wAlice`. -/
def wDb : DB := ⟨[wAlice], [], [], [], 10, 20⟩

/-- A summary row of `wAlice` with a stale `reset_date` (yesterday, day 99). -/
def wStale : UsageRow :=
  { id := 20, user_id := 1, chat_count := 50, image_count := 3, reset_date := 99,
    total_chat_count := 7, total_image_count := 8, total_ppt_count := 9,
    last_used_at := some ⟨99, 1⟩, last_chat_at := some ⟨99, 1⟩,
    last_image_at := some ⟨98, 1⟩, last_ppt_at := none }

/-- `wDb` with the stale summary row installed. -/
def wDbStale : DB := ⟨[wAlice], [], [], [wStale], 10, 21⟩

/-! ### C7 — lazy daily reset -/

/-- **C7**: when `reset_date < today`, `check_and_reset_daily` zeroes
`chat_count` and `image_count` and sets `reset_date = today`, leaving the
lifetime totals and every `last_*_at` stamp unchanged; when
`reset_date ≥ today` the summary and the store are returned unchanged. -/
theorem check_and_reset_daily_lazy (db : DB) (today : Int) (u : UsageRow) :
    (u.reset_date < today →
      (check_and_reset_daily db today u).1.chat_count = 0 ∧
      (check_and_reset_daily db today u).1.image_count = 0 ∧
      (check_and_reset_daily db today u).1.reset_date = today ∧
      (check_and_reset_daily db today u).1.total_chat_count = u.total_chat_count ∧
      (check_and_reset_daily db today u).1.total_image_count = u.total_image_count ∧
      (check_and_reset_daily db today u).1.total_ppt_count = u.total_ppt_count ∧
      (check_and_reset_daily db today u).1.last_used_at = u.last_used_at ∧
      (check_and_reset_daily db today u).1.last_chat_at = u.last_chat_at ∧
      (check_and_reset_daily db today u).1.last_image_at = u.last_image_at ∧
      (check_and_reset_daily db today u).1.last_ppt_at = u.last_ppt_at) ∧
    (¬u.reset_date < today → check_and_reset_daily db today u = (u, db)) := by
  constructor
  · intro h
    unfold check_and_reset_daily
    rw [if_pos h]
    exact ⟨rfl, rfl, rfl, rfl, rfl, rfl, rfl, rfl, rfl, rfl⟩
  · intro h
    unfold check_and_reset_daily
    rw [if_neg h]

/-- Witness for C7 at the concrete stale summary `wStale` (reset day 99,
today = 100): counters are zeroed, `reset_date` becomes 100, lifetime totals
survive; with today = 99 nothing changes. -/
theorem check_and_reset_daily_lazy_witness :
    (check_and_reset_daily wDbStale 100 wStale).1.chat_count = 0 ∧
    (check_and_reset_daily wDbStale 100 wStale).1.reset_date = 100 ∧
    (check_and_reset_daily wDbStale 100 wStale).1.total_chat_count = 7 ∧
    check_and_reset_daily wDbStale 99 wStale = (wStale, wDbStale) := by
  have h1 := (check_and_reset_daily_lazy wDbStale 100 wStale).1 (by decide)
  have h2 := (check_and_reset_daily_lazy wDbStale 99 wStale).2 (by decide)
  exact ⟨h1.1, h1.2.2.1, by rw [h1.2.2.2.1]; rfl, h2⟩

/-! ### C9 — export page-size truncation -/

/-- One of 501 ledger rows of `wAlice`; ids and `occurred_at` are strictly
descending so the row order already matches `(occurred_at desc, id desc)`. -/
def wEv501 (i : Nat) : EventRow :=
  { id := 600 - i, user_id := 1, action := "chat", status := "success",
    request_id := toString i, session_id := none, amount := 1,
    error_code := none, source := "backend", occurred_at := ⟨0, 600 - i⟩,
    created_at := ⟨0, 0⟩ }

/-- A store with 501 ledger rows, all matching an unfiltered export. -/
def wDb501 : DB := ⟨[wAlice], (List.range 501).map wEv501, [], [], 1000, 20⟩

set_option maxRecDepth 100000 in
/-- **C9**: the export variant is *not* unbounded — `export_usage_events`
passes `page_size = 100000` to `list_usage_events`, which clamps the size to
500, so a filter set matching 501 ledger rows exports only 500 of them even
though the same query reports `total = 501`. -/
theorem export_usage_events_truncated_at_500 :
    (export_usage_events wDb501 none none "" "" "").length = 500 ∧
    (list_usage_events wDb501 {} 1 100000).total = 501 := by
  constructor <;> rfl

/-! ### C5 — free-tier quota boundary -/

/-- **C5**: for a non-admin user of tier `free` (`chat_limit = 50`),
`check_chat_limit` allows exactly when the post-reset `chat_count` is
strictly below 50, and a denial message embeds the numeric limit 50. -/
theorem check_chat_limit_free_boundary (db : DB) (clock : Clock) (user : UserRow)
    (hrole : ¬user.role = "admin") (htier : user.tier = "free") :
    ((check_chat_limit db clock user).1.1 = true ↔
      (check_and_reset_daily (get_or_create_usage db clock.today user.id).2
        clock.today (get_or_create_usage db clock.today user.id).1).1.chat_count < 50) ∧
    ((check_chat_limit db clock user).1.1 = false →
      strContains (check_chat_limit db clock user).1.2 "50" = true) := by
  have hmsg : strContains ("今日对话次数已用完（" ++ toString (50 : Int) ++ "/" ++
      toString (50 : Int) ++ "），请明天再试或升级账户") "50" = true := rfl
  have hlim : (get_tier_limits (tierOf user.tier)).chat_limit = 50 := by
    rw [htier]; rfl
  simp only [check_chat_limit, if_neg hrole, hlim]
  by_cases hc : (check_and_reset_daily (get_or_create_usage db clock.today user.id).2
      clock.today (get_or_create_usage db clock.today user.id).1).1.chat_count ≥ 50
  · rw [if_pos hc]
    refine ⟨?_, fun _ => hmsg⟩
    simp only [Bool.false_eq_true, false_iff]
    omega
  · rw [if_neg hc]
    refine ⟨?_, by simp⟩
    simp only [true_iff]
    omega

/-- `wDb` with a summary row of `wAlice` at 49 chats today. -/
def wDb49 : DB :=
  ⟨[wAlice], [], [],
    [{ id := 20, user_id := 1, chat_count := 49, image_count := 0,
       reset_date := 100, total_chat_count := 49, total_image_count := 0,
       total_ppt_count := 0, last_used_at := none, last_chat_at := none,
       last_image_at := none, last_ppt_at := none }], 10, 21⟩

/-- `wDb` with a summary row of `wAlice` at 50 chats today. -/
def wDb50 : DB :=
  ⟨[wAlice], [], [],
    [{ id := 20, user_id := 1, chat_count := 50, image_count := 0,
       reset_date := 100, total_chat_count := 50, total_image_count := 0,
       total_ppt_count := 0, last_used_at := none, last_chat_at := none,
       last_image_at := none, last_ppt_at := none }], 10, 21⟩

/-- Witness for C5: `wAlice` (tier `free`) is allowed at 49 chats today and
denied at 50, with the limit embedded in the denial message. -/
theorem check_chat_limit_free_boundary_witness :
    (check_chat_limit wDb49 wClock wAlice).1.1 = true ∧
    (check_chat_limit wDb50 wClock wAlice).1.1 = false ∧
    strContains (check_chat_limit wDb50 wClock wAlice).1.2 "50" = true := by
  have h49 := check_chat_limit_free_boundary wDb49 wClock wAlice (by decide) rfl
  have h50 := check_chat_limit_free_boundary wDb50 wClock wAlice (by decide) rfl
  have hden : (check_chat_limit wDb50 wClock wAlice).1.1 = false := by
    cases hv : (check_chat_limit wDb50 wClock wAlice).1.1
    · rfl
    · exact absurd (h50.1.mp hv) (by decide)
  exact ⟨h49.1.mpr (by decide), hden, h50.2 hden⟩

/-! ### C6 — the `-1` sentinel -/

/-- A user whose `tier` is `admin` (effective limits `-1`) but whose `role`
is not `admin`. -/
def wBob : UserRow := ⟨2, "bob", "bob@example.com", "user", "admin"⟩

/-- An empty store holding only `wBob`. -/
def wDbBob : DB := ⟨[wBob], [], [], [], 10, 20⟩

/-- An `admin`-role user. -/
def wRoot : UserRow := ⟨3, "root", "root@example.com", "admin", "admin"⟩

/-- An empty store holding only `wRoot`. -/
def wDbRoot : DB := ⟨[wRoot], [], [], [], 10, 20⟩

/-- Counterexample to C6: `wBob` has effective `chat_limit = -1` and
`image_limit = -1`, yet with a zero counter both checks deny (`0 ≥ -1`),
because the code compares `counter >= limit` with no `-1` special case — only
the `role == "admin"` gate grants unlimited access. -/
theorem minus_one_limit_denied_at_input :
    ¬wBob.role = "admin" ∧
    (get_tier_limits (tierOf wBob.tier)).chat_limit = -1 ∧
    (check_chat_limit wDbBob wClock wBob).1.1 = false ∧
    (get_tier_limits (tierOf wBob.tier)).image_limit = -1 ∧
    (check_image_limit wDbBob wClock wBob).1.1 = false := by
  exact ⟨by decide, rfl, rfl, rfl, rfl⟩

/-- **C6 (amended)**: a user with `role = "admin"` is always allowed by both
checks; for any non-admin-role user an effective limit of `-1` never allows —
with a non-negative counter the comparison `counter ≥ -1` always holds, so the
check denies. -/
theorem limit_checks_role_gates_minus_one (db : DB) (clock : Clock)
    (user : UserRow) :
    (user.role = "admin" →
      (check_chat_limit db clock user).1.1 = true ∧
      (check_image_limit db clock user).1.1 = true) ∧
    (¬user.role = "admin" →
      (get_tier_limits (tierOf user.tier)).chat_limit = -1 →
      0 ≤ (check_and_reset_daily (get_or_create_usage db clock.today user.id).2
            clock.today (get_or_create_usage db clock.today user.id).1).1.chat_count →
      (check_chat_limit db clock user).1.1 = false) ∧
    (¬user.role = "admin" →
      (get_tier_limits (tierOf user.tier)).image_limit = -1 →
      0 ≤ (check_and_reset_daily (get_or_create_usage db clock.today user.id).2
            clock.today (get_or_create_usage db clock.today user.id).1).1.image_count →
      (check_image_limit db clock user).1.1 = false) := by
  refine ⟨fun h => ⟨?_, ?_⟩, fun h hlim hge => ?_, fun h hlim hge => ?_⟩
  · simp [check_chat_limit, h]
  · simp [check_image_limit, h]
  · simp only [check_chat_limit, if_neg h, hlim]
    rw [if_pos (by omega)]
  · simp only [check_image_limit, if_neg h, hlim]
    rw [if_pos (by omega)]

/-- Witness for the amended C6: `wRoot` (role admin) is allowed; `wBob`
(role user, tier admin, zero counters) is denied. -/
theorem limit_checks_role_gates_minus_one_witness :
    (check_chat_limit wDbRoot wClock wRoot).1.1 = true ∧
    (check_chat_limit wDbBob wClock wBob).1.1 = false := by
  have h1 := (limit_checks_role_gates_minus_one wDbRoot wClock wRoot).1 rfl
  have h2 := (limit_checks_role_gates_minus_one wDbBob wClock wBob).2.1
    (by decide) rfl (by decide)
  exact ⟨h1.1, h2⟩

/-! ### C3 — validation atomicity -/

/-- **C3**: a `record_usage_event` call with an unknown normalized action, an
unknown normalized status, an empty `request_id`, or neither `user` nor
`user_id` supplied, fails with a validation error, and the transaction
semantics leave every table of the store exactly as it was. -/
theorem record_validation_rejects_without_effect (db : DB) (clock : Clock)
    (a : RecordArgs)
    (h : normalizeTok a.action ∉ ACTIONS ∨ normalizeTok a.status ∉ STATUSES ∨
         a.request_id = "" ∨ (a.user = none ∧ a.user_id = none)) :
    (∃ msg, record_usage_event db clock a = .error (.invalidInput msg)) ∧
    commitTx db (record_usage_event db clock a) = db := by
  have key : ∃ msg, record_usage_event db clock a = .error (.invalidInput msg) := by
    unfold record_usage_event record_usage_event_core
    by_cases h1 : normalizeTok a.action ∉ ACTIONS
    · rw [if_pos h1]; exact ⟨_, rfl⟩
    · rw [if_neg h1]
      by_cases h2 : normalizeTok a.status ∉ STATUSES
      · rw [if_pos h2]; exact ⟨_, rfl⟩
      · rw [if_neg h2]
        by_cases h3 : a.request_id = ""
        · rw [if_pos h3]; exact ⟨_, rfl⟩
        · rw [if_neg h3]
          have h4 : resolvedUserId a = 0 := by
            rcases h with h | h | h | h
            · exact absurd h h1
            · exact absurd h h2
            · exact absurd h h3
            · unfold resolvedUserId
              rw [h.1, h.2]
              rfl
          rw [if_pos h4]
          exact ⟨_, rfl⟩
  rcases key with ⟨m, hm⟩
  refine ⟨⟨m, hm⟩, ?_⟩
  rw [hm]
  rfl

/-- Witness for C3: an unknown action `"delete"` on the empty store is
rejected and the store is untouched. -/
theorem record_validation_rejects_without_effect_witness :
    (∃ msg, record_usage_event wDb wClock
      { action := "delete", status := "success", request_id := "r1",
        user := some wAlice } = .error (.invalidInput msg)) ∧
    commitTx wDb (record_usage_event wDb wClock
      { action := "delete", status := "success", request_id := "r1",
        user := some wAlice }) = wDb :=
  record_validation_rejects_without_effect wDb wClock
    { action := "delete", status := "success", request_id := "r1",
      user := some wAlice } (Or.inl (by decide))

/-! ### C10 — amount clamping -/

theorem safeAmount_eq_max (x : Int) : safeAmount x = max 1 x := by
  unfold safeAmount
  by_cases h : x = 0
  · subst h; decide
  · rw [if_neg h]

/-- **C10**: the stored `UsageEvent.amount` and the per-key aggregate
increment of a validated, non-duplicate `record` call both equal
`max(1, amount)` — a zero or negative `amount` is silently clamped to 1, so
every persisted event carries `amount ≥ 1`. -/
theorem record_amount_clamped (db : DB) (clock : Clock) (a : RecordArgs)
    (ha : normalizeTok a.action ∈ ACTIONS)
    (hs : normalizeTok a.status ∈ STATUSES)
    (hr : ¬a.request_id = "")
    (hu : ¬resolvedUserId a = 0)
    (hnd : db.events.find? (eventKeyPred (resolvedUserId a)
            (normalizeTok a.action) a.request_id) = none) :
    record_usage_event db clock a =
      .ok ({ recorded := true, duplicated := false, event_id := db.nextEventId,
             request_id := a.request_id }, recordCommit db clock a) ∧
    (recordCommit db clock a).events = db.events ++ [newEventRow db clock a] ∧
    (newEventRow db clock a).amount = max 1 a.amount ∧
    1 ≤ (newEventRow db clock a).amount ∧
    aggTotal (recordCommit db clock a) (a.occurred_at.getD clock.now).date
      (resolvedUserId a) (normalizeTok a.action) (normalizeTok a.status) =
      aggTotal db (a.occurred_at.getD clock.now).date (resolvedUserId a)
        (normalizeTok a.action) (normalizeTok a.status) + max 1 a.amount := by
  have hok := record_core_ok db db clock a ha hs hr hu hnd
    (any_eq_false_of_find?_eq_none _ _ hnd)
  refine ⟨hok, recordCommit_events db clock a, ?_, ?_, ?_⟩
  · show safeAmount a.amount = max 1 a.amount
    exact safeAmount_eq_max a.amount
  · show 1 ≤ safeAmount a.amount
    rw [safeAmount_eq_max]
    exact le_max_left 1 a.amount
  · unfold aggTotal
    rw [recordCommit_aggregates, aggRowsTotal_upsert,
      if_pos ⟨rfl, rfl, rfl, rfl⟩, safeAmount_eq_max]

/-- Witness for C10: recording with `amount = -5` stores amount 1. -/
theorem record_amount_clamped_witness :
    (newEventRow wDb wClock
      { action := "chat", status := "success", request_id := "r1",
        user := some wAlice, amount := -5 }).amount = max 1 (-5 : Int) ∧
    aggTotal (recordCommit wDb wClock
      { action := "chat", status := "success", request_id := "r1",
        user := some wAlice, amount := -5 }) 100 1 "chat" "success" =
      aggTotal wDb 100 1 "chat" "success" + max 1 (-5 : Int) := by
  have h := record_amount_clamped wDb wClock
    { action := "chat", status := "success", request_id := "r1",
      user := some wAlice, amount := -5 }
    (by decide) (by decide) (by decide) (by decide) rfl
  exact ⟨h.2.2.1, h.2.2.2.2⟩

/-! ### C2 — racing-retry unique-constraint violation -/

/-- The racing retry's committed row for key `(1, "chat", "r1")`. -/
def wRacer : EventRow :=
  { id := 10, user_id := 1, action := "chat", status := "success",
    request_id := "r1", session_id := none, amount := 1, error_code := none,
    source := "backend", occurred_at := ⟨100, 4⟩, created_at := ⟨100, 4⟩ }

/-- Counterexample to C2: on the empty store, a `record` call whose duplicate
lookup sees nothing but whose insert runs after the racing retry `wRacer`
committed the same `(user_id, action, request_id)` key raises the
unique-constraint violation to the caller — there is no handler converting it
to `duplicated=true`. -/
theorem record_race_error_at_input :
    wDb.events.find? (eventKeyPred 1 "chat" "r1") = none ∧
    record_usage_event_afterRace wRacer wDb wClock
      { action := "chat", status := "success", request_id := "r1",
        user := some wAlice } = .error .uniqueViolation := by
  exact ⟨rfl, rfl⟩

/-- **C2 (amended)**: when a racing retry commits the same
`(user_id, action, request_id)` key between the duplicate lookup and the
insert, `record_usage_event` does *not* catch the unique-constraint
violation: the error propagates to the caller (rolling the transaction back);
only the pre-insert lookup deduplicates. -/
theorem record_race_unique_violation_propagates (db : DB) (clock : Clock)
    (a : RecordArgs) (racer : EventRow)
    (ha : normalizeTok a.action ∈ ACTIONS)
    (hs : normalizeTok a.status ∈ STATUSES)
    (hr : ¬a.request_id = "")
    (hu : ¬resolvedUserId a = 0)
    (hnd : db.events.find? (eventKeyPred (resolvedUserId a)
            (normalizeTok a.action) a.request_id) = none)
    (hk1 : racer.user_id = resolvedUserId a)
    (hk2 : racer.action = normalizeTok a.action)
    (hk3 : racer.request_id = a.request_id) :
    record_usage_event_afterRace racer db clock a = .error .uniqueViolation ∧
    commitTx db (record_usage_event_afterRace racer db clock a) = db := by
  have key : record_usage_event_afterRace racer db clock a = .error .uniqueViolation := by
    unfold record_usage_event_afterRace record_usage_event_core
    rw [if_neg (not_not_intro ha), if_neg (not_not_intro hs), if_neg hr, if_neg hu]
    simp only [hnd]
    have hany : (rawInsertEvent db racer).events.any
        (eventKeyPred (resolvedUserId a) (normalizeTok a.action) a.request_id) = true := by
      unfold rawInsertEvent
      simp only [List.any_append, List.any_cons, List.any_nil]
      have : eventKeyPred (resolvedUserId a) (normalizeTok a.action) a.request_id racer = true := by
        simp [eventKeyPred, hk1, hk2, hk3]
      simp [this]
    simp only [insertEventChecked, hany]
    rfl
  refine ⟨key, ?_⟩
  rw [key]
  rfl

/-- Witness for the amended C2 at the concrete race of
`record_race_error_at_input`. -/
theorem record_race_unique_violation_propagates_witness :
    record_usage_event_afterRace wRacer wDb wClock
      { action := "chat", status := "success", request_id := "r1",
        user := some wAlice } = .error .uniqueViolation ∧
    commitTx wDb (record_usage_event_afterRace wRacer wDb wClock
      { action := "chat", status := "success", request_id := "r1",
        user := some wAlice }) = wDb :=
  record_race_unique_violation_propagates wDb wClock
    { action := "chat", status := "success", request_id := "r1",
      user := some wAlice } wRacer
    (by decide) (by decide) (by decide) (by decide) rfl rfl rfl rfl

/-! ### C1 — idempotency of `record` -/

/-- A valid chat/success recording request of `wAlice` with key
`(1, "chat", "r1")`. -/
def wArgs : RecordArgs :=
  { action := "chat", status := "success", request_id := "r1",
    user := some wAlice }

/-- **C1**: a validated first `record` call for a fresh
`(user_id, action, request_id)` key commits exactly one new `UsageEvent` and
increases exactly one daily-aggregate key total by the recorded amount; a
second call with the same key (any clock, any status) returns
`duplicated = true` carrying the first event's id and returns the store
entirely unchanged. -/
theorem record_usage_event_idempotent (db : DB) (clock clock2 : Clock)
    (a a2 : RecordArgs)
    (ha : normalizeTok a.action ∈ ACTIONS)
    (hs : normalizeTok a.status ∈ STATUSES)
    (hr : ¬a.request_id = "")
    (hu : ¬resolvedUserId a = 0)
    (hnd : db.events.find? (eventKeyPred (resolvedUserId a)
            (normalizeTok a.action) a.request_id) = none)
    (hs2 : normalizeTok a2.status ∈ STATUSES)
    (heqa : normalizeTok a2.action = normalizeTok a.action)
    (heqr : a2.request_id = a.request_id)
    (hequ : resolvedUserId a2 = resolvedUserId a) :
    ∃ db1 : DB,
      record_usage_event db clock a =
        .ok ({ recorded := true, duplicated := false, event_id := db.nextEventId,
               request_id := a.request_id }, db1) ∧
      db1.events = db.events ++ [newEventRow db clock a] ∧
      (∀ d uid act st, aggTotal db1 d uid act st = aggTotal db d uid act st +
        (if d = (a.occurred_at.getD clock.now).date ∧ uid = resolvedUserId a ∧
            act = normalizeTok a.action ∧ st = normalizeTok a.status
         then safeAmount a.amount else 0)) ∧
      record_usage_event db1 clock2 a2 =
        .ok ({ recorded := false, duplicated := true, event_id := db.nextEventId,
               request_id := a2.request_id }, db1) := by
  refine ⟨recordCommit db clock a,
    record_core_ok db db clock a ha hs hr hu hnd
      (any_eq_false_of_find?_eq_none _ _ hnd),
    recordCommit_events db clock a, ?_, ?_⟩
  · intro d uid act st
    unfold aggTotal
    rw [recordCommit_aggregates, aggRowsTotal_upsert]
  · have hfind : (recordCommit db clock a).events.find?
        (eventKeyPred (resolvedUserId a2) (normalizeTok a2.action) a2.request_id) =
          some (newEventRow db clock a) := by
      rw [heqa, heqr, hequ, recordCommit_events, find?_append_of_none _ _ _ hnd]
      have hp : eventKeyPred (resolvedUserId a) (normalizeTok a.action)
          a.request_id (newEventRow db clock a) = true := by
        simp [eventKeyPred, newEventRow]
      simp [List.find?, hp]
    exact record_core_dup (recordCommit db clock a) (recordCommit db clock a)
      clock2 a2 (newEventRow db clock a)
      (by rw [heqa]; exact ha) hs2 (by rw [heqr]; exact hr)
      (by rw [hequ]; exact hu) hfind

/-- Witness for C1: the two-call scenario at the concrete key
`(1, "chat", "r1")` on the empty store. -/
theorem record_usage_event_idempotent_witness :
    ∃ db1 : DB,
      record_usage_event wDb wClock wArgs =
        .ok ({ recorded := true, duplicated := false, event_id := 10,
               request_id := "r1" }, db1) ∧
      db1.events = wDb.events ++ [newEventRow wDb wClock wArgs] ∧
      (∀ d uid act st, aggTotal db1 d uid act st = aggTotal wDb d uid act st +
        (if d = 100 ∧ uid = 1 ∧ act = "chat" ∧ st = "success"
         then 1 else 0)) ∧
      record_usage_event db1 wClock wArgs =
        .ok ({ recorded := false, duplicated := true, event_id := 10,
               request_id := "r1" }, db1) :=
  record_usage_event_idempotent wDb wClock wClock wArgs wArgs
    (by decide) (by decide) (by decide) (by decide) rfl
    (by decide) rfl rfl rfl

/-! ### C4 — summary frame condition -/

theorem map_update_twice (l : List UsageRow) (i : Nat) (b c : UsageRow)
    (hb : b.id = i) :
    (l.map (fun x => if x.id = i then b else x)).map
        (fun x => if x.id = i then c else x) =
      l.map (fun x => if x.id = i then c else x) := by
  rw [List.map_map]
  apply List.map_congr_left
  intro x _
  by_cases h : x.id = i
  · simp [Function.comp, h, hb]
  · simp [Function.comp, h]

/-- A validated `success`/non-admin `record` call for a user whose summary
row exists replaces exactly the rows carrying that summary's primary key with
the reset-then-incremented row. -/
theorem recordCommit_usages_existing (db : DB) (clock : Clock) (a : RecordArgs)
    (hsn : normalizeTok a.status = "success")
    (hadm : resolveIsAdmin db a (resolvedUserId a) = false)
    (u0 : UsageRow)
    (hex : db.usages.find? (fun u => u.user_id == resolvedUserId a) = some u0) :
    (recordCommit db clock a).usages = db.usages.map (fun x =>
      if x.id = u0.id then
        applyIncrement (check_and_reset_daily db clock.today u0).1
          (normalizeTok a.action) (safeAmount a.amount)
          (a.occurred_at.getD clock.now)
      else x) := by
  unfold recordCommit
  rw [if_pos ⟨hsn, hadm⟩]
  unfold recordSummaryUpsert
  have hfind : (recordBase db clock a).usages.find?
      (fun u => u.user_id == resolvedUserId a) = some u0 := by
    rw [recordBase_usages]; exact hex
  unfold get_or_create_usage
  rw [hfind]
  unfold check_and_reset_daily
  by_cases hreset : u0.reset_date < clock.today
  · rw [if_pos hreset, if_pos hreset]
    unfold updateUsageRow
    simp only [recordBase_usages, applyIncrement_id]
    exact map_update_twice db.usages u0.id _ _ rfl
  · rw [if_neg hreset, if_neg hreset]
    unfold updateUsageRow
    simp only [recordBase_usages, applyIncrement_id]

/-- **C4**: every validated, non-duplicate `record` call inserts its
`UsageEvent` and applies the single aggregate increment; when the status is
`failed` or the user is an admin, the `user_usages` table is left completely
unchanged; only on `success` for a non-admin user is the summary upserted:
for a user without a prior summary row exactly one fresh row is appended,
carrying the action-specific daily counter, lifetime total and `last_*_at`
stamp, and for a user with an existing row exactly that row's key is
replaced by its lazily-reset, incremented version. -/
theorem record_summary_frame (db : DB) (clock : Clock) (a : RecordArgs)
    (ha : normalizeTok a.action ∈ ACTIONS)
    (hs : normalizeTok a.status ∈ STATUSES)
    (hr : ¬a.request_id = "")
    (hu : ¬resolvedUserId a = 0)
    (hnd : db.events.find? (eventKeyPred (resolvedUserId a)
            (normalizeTok a.action) a.request_id) = none) :
    record_usage_event db clock a =
      .ok ({ recorded := true, duplicated := false, event_id := db.nextEventId,
             request_id := a.request_id }, recordCommit db clock a) ∧
    (recordCommit db clock a).events = db.events ++ [newEventRow db clock a] ∧
    (∀ d uid act st,
      aggTotal (recordCommit db clock a) d uid act st = aggTotal db d uid act st +
        (if d = (a.occurred_at.getD clock.now).date ∧ uid = resolvedUserId a ∧
            act = normalizeTok a.action ∧ st = normalizeTok a.status
         then safeAmount a.amount else 0)) ∧
    ((normalizeTok a.status = "failed" ∨
        resolveIsAdmin db a (resolvedUserId a) = true) →
      (recordCommit db clock a).usages = db.usages) ∧
    (normalizeTok a.status = "success" →
      resolveIsAdmin db a (resolvedUserId a) = false →
      db.usages.find? (fun u => u.user_id == resolvedUserId a) = none →
      (∀ x ∈ db.usages, x.id ≠ db.nextUsageId) →
      ∃ u3, (recordCommit db clock a).usages = db.usages ++ [u3] ∧
        u3.user_id = resolvedUserId a ∧
        u3.reset_date = clock.today ∧
        u3.last_used_at = some (a.occurred_at.getD clock.now) ∧
        (normalizeTok a.action = "chat" →
          u3.chat_count = safeAmount a.amount ∧
          u3.total_chat_count = safeAmount a.amount ∧
          u3.last_chat_at = some (a.occurred_at.getD clock.now) ∧
          u3.image_count = 0) ∧
        (normalizeTok a.action = "image" →
          u3.image_count = safeAmount a.amount ∧
          u3.total_image_count = safeAmount a.amount ∧
          u3.last_image_at = some (a.occurred_at.getD clock.now) ∧
          u3.chat_count = 0) ∧
        (normalizeTok a.action = "ppt" →
          u3.total_ppt_count = safeAmount a.amount ∧
          u3.last_ppt_at = some (a.occurred_at.getD clock.now) ∧
          u3.chat_count = 0 ∧ u3.image_count = 0)) ∧
    (normalizeTok a.status = "success" →
      resolveIsAdmin db a (resolvedUserId a) = false →
      ∀ u0, db.usages.find? (fun u => u.user_id == resolvedUserId a) = some u0 →
      (recordCommit db clock a).usages = db.usages.map (fun x =>
        if x.id = u0.id then
          applyIncrement (check_and_reset_daily db clock.today u0).1
            (normalizeTok a.action) (safeAmount a.amount)
            (a.occurred_at.getD clock.now)
        else x)) := by
  refine ⟨record_core_ok db db clock a ha hs hr hu hnd
      (any_eq_false_of_find?_eq_none _ _ hnd),
    recordCommit_events db clock a, ?_, ?_, ?_,
    fun hsn hadm u0 hex => recordCommit_usages_existing db clock a hsn hadm u0 hex⟩
  · intro d uid act st
    unfold aggTotal
    rw [recordCommit_aggregates, aggRowsTotal_upsert]
  · intro h
    apply recordCommit_usages_skip
    rintro ⟨hsn, hadm⟩
    rcases h with h | h
    · rw [hsn] at h
      exact absurd h (by decide)
    · rw [h] at hadm
      exact absurd hadm (by decide)
  · intro hsn hadm hfr hid
    refine ⟨applyIncrement
      { id := db.nextUsageId, user_id := resolvedUserId a, chat_count := 0,
        image_count := 0, reset_date := clock.today, total_chat_count := 0,
        total_image_count := 0, total_ppt_count := 0, last_used_at := none,
        last_chat_at := none, last_image_at := none, last_ppt_at := none }
      (normalizeTok a.action) (safeAmount a.amount)
      (a.occurred_at.getD clock.now),
      recordCommit_usages_fresh db clock a hsn hadm hfr hid, ?_, ?_, ?_, ?_, ?_, ?_⟩
    · unfold applyIncrement
      split
      · rfl
      · split
        · rfl
        · split <;> rfl
    · unfold applyIncrement
      split
      · rfl
      · split
        · rfl
        · split <;> rfl
    · unfold applyIncrement
      split
      · rfl
      · split
        · rfl
        · split <;> rfl
    · intro hact
      rw [hact]
      unfold applyIncrement
      rw [if_pos rfl]
      refine ⟨?_, ?_, rfl, rfl⟩ <;> simp
    · intro hact
      rw [hact]
      unfold applyIncrement
      rw [if_neg (by decide), if_pos rfl]
      refine ⟨?_, ?_, rfl, rfl⟩ <;> simp
    · intro hact
      rw [hact]
      unfold applyIncrement
      rw [if_neg (by decide), if_neg (by decide), if_pos rfl]
      refine ⟨?_, rfl, rfl, rfl⟩
      simp

/-- A `failed` chat recording request of `wAlice` with key `(1, "chat", "r2")`. -/
def wArgsFailed : RecordArgs :=
  { action := "chat", status := "failed", request_id := "r2",
    user := some wAlice }

/-- Witness for C4: a `failed` recording at `wDb49` leaves the summary table
unchanged, while a `success` recording at the empty store appends exactly one
fresh summary row for user 1. -/
theorem record_summary_frame_witness :
    (recordCommit wDb49 wClock wArgsFailed).usages = wDb49.usages ∧
    (∃ u3, (recordCommit wDb wClock wArgs).usages = wDb.usages ++ [u3] ∧
      u3.user_id = 1 ∧ u3.chat_count = 1 ∧ u3.total_chat_count = 1) := by
  have h1 := record_summary_frame wDb49 wClock wArgsFailed
    (by decide) (by decide) (by decide) (by decide) rfl
  have h2 := record_summary_frame wDb wClock wArgs
    (by decide) (by decide) (by decide) (by decide) rfl
  refine ⟨h1.2.2.2.1 (Or.inl (by decide)), ?_⟩
  rcases h2.2.2.2.2.1 (by decide) (by decide) rfl (by simp [wDb]) with
    ⟨u3, hap, huid, _, _, hchat, _, _⟩
  rcases hchat (by decide) with ⟨hc, ht, _, _⟩
  exact ⟨u3, hap, huid, by rw [hc]; decide, by rw [ht]; decide⟩

/-! ### C8 — per-day aggregate reconciliation -/

theorem foldr_ite_add_eq_zero {α : Type} (P : α → Prop) [DecidablePred P]
    (f : α → Int) (l : List α) (h : ∀ x ∈ l, ¬P x) :
    l.foldr (fun x s => (if P x then f x else 0) + s) 0 = 0 := by
  induction l with
  | nil => rfl
  | cons x xs ih =>
      simp only [List.foldr_cons]
      rw [if_neg (h x (List.mem_cons_self x xs)),
        ih (fun y hy => h y (List.mem_cons_of_mem x hy))]
      rfl

theorem foldr_ite_add_append {α : Type} (P : α → Prop) [DecidablePred P]
    (f : α → Int) (l1 l2 : List α) :
    (l1 ++ l2).foldr (fun x s => (if P x then f x else 0) + s) 0 =
      l1.foldr (fun x s => (if P x then f x else 0) + s) 0 +
      l2.foldr (fun x s => (if P x then f x else 0) + s) 0 := by
  induction l1 with
  | nil => simp
  | cons x xs ih =>
      simp only [List.cons_append, List.foldr_cons, ih]
      omega

theorem mem_reconKeys_iff (db : DB) (ids : List Nat) (k : AggKey) :
    k ∈ reconKeys db ids ↔
      ((∃ e ∈ db.events, e.user_id ∈ ids ∧ eventKeyOf e = k) ∨
       (∃ g ∈ db.aggregates, g.user_id ∈ ids ∧ aggKeyOf g = k)) := by
  unfold reconKeys
  rw [List.mem_dedup, List.mem_append]
  simp only [List.mem_map, List.mem_filter, decide_eq_true_eq]
  constructor
  · rintro (⟨e, ⟨he, hid⟩, hk⟩ | ⟨g, ⟨hg, hid⟩, hk⟩)
    · exact Or.inl ⟨e, he, hid, hk⟩
    · exact Or.inr ⟨g, hg, hid, hk⟩
  · rintro (⟨e, he, hid, hk⟩ | ⟨g, hg, hid, hk⟩)
    · exact Or.inl ⟨e, ⟨he, hid⟩, hk⟩
    · exact Or.inr ⟨g, ⟨hg, hid⟩, hk⟩

/-- The per-day check marks a key exactly when the ledger-derived sum differs
from the stored aggregate mass — a key absent from either side counts as 0. -/
theorem mem_aggregateMismatchKeys_iff (db : DB) (ids : List Nat) (k : AggKey) :
    k ∈ aggregateMismatchKeys db ids ↔ evSum db ids k ≠ agSum db ids k := by
  unfold aggregateMismatchKeys
  rw [List.mem_filter]
  constructor
  · rintro ⟨-, hp⟩
    simpa using hp
  · intro hne
    refine ⟨?_, by simpa using hne⟩
    by_contra hk
    apply hne
    have hev : evSum db ids k = 0 := by
      apply foldr_ite_add_eq_zero
        (fun e => e.user_id ∈ ids ∧ eventKeyOf e = k) (fun e => e.amount)
      intro e he hP
      exact hk ((mem_reconKeys_iff db ids k).mpr (Or.inl ⟨e, he, hP⟩))
    have hag : agSum db ids k = 0 := by
      apply foldr_ite_add_eq_zero
        (fun g => g.user_id ∈ ids ∧ aggKeyOf g = k) (fun g => g.count)
      intro g hg hP
      exact hk ((mem_reconKeys_iff db ids k).mpr (Or.inr ⟨g, hg, hP⟩))
    rw [hev, hag]

theorem reconcile_agg_count (db : DB) (uf : Option Nat) :
    (reconcile db uf).aggregate_mismatch_count =
      (aggregateMismatchKeys db ((reconUsers db uf).map (fun u => u.id))).length := by
  simp only [reconcile]
  split
  · next h =>
      have hids : (reconUsers db uf).map (fun u => u.id) = [] :=
        List.isEmpty_iff.mp h
      rw [hids]
      show 0 = _
      unfold aggregateMismatchKeys reconKeys
      simp
  · next h =>
      simp [List.length_map]

theorem length_filter_eq_one_of_nodup {α : Type} (p : α → Bool) (l : List α)
    (hl : l.Nodup) (x0 : α) (hp : ∀ x, p x = true ↔ x = x0) (hx : x0 ∈ l) :
    (l.filter p).length = 1 := by
  induction l with
  | nil => cases hx
  | cons y ys ih =>
      rcases List.mem_cons.mp hx with h | h
      · rw [List.filter_cons_of_pos ((hp y).mpr h.symm)]
        have hnil : ys.filter p = [] := by
          rw [List.filter_eq_nil_iff]
          intro a ha hpa
          rw [(hp a).mp hpa] at ha
          rw [h] at ha
          exact (List.nodup_cons.mp hl).1 ha
        rw [hnil]
        rfl
      · have hyne : ¬p y = true := by
          rw [hp y]
          intro e
          rw [e] at hl
          exact (List.nodup_cons.mp hl).1 h
        rw [List.filter_cons_of_neg hyne]
        exact ih (List.nodup_cons.mp hl).2 h

theorem agRowsSum_bump (ids : List Nat) (k : AggKey) (g : AggRow)
    (pre post : List AggRow) :
    (pre ++ { g with count := g.count + 1 } :: post).foldr
      (fun x s => (if x.user_id ∈ ids ∧ aggKeyOf x = k then x.count else 0) + s) 0 =
    (pre ++ g :: post).foldr
      (fun x s => (if x.user_id ∈ ids ∧ aggKeyOf x = k then x.count else 0) + s) 0 +
      (if g.user_id ∈ ids ∧ aggKeyOf g = k then 1 else 0) := by
  induction pre with
  | nil =>
      simp only [List.nil_append, List.foldr_cons, aggKeyOf]
      by_cases hc : g.user_id ∈ ids ∧ (⟨g.stat_date, g.user_id, g.action, g.status⟩ : AggKey) = k
      · rw [if_pos hc, if_pos hc, if_pos hc]
        omega
      · rw [if_neg hc, if_neg hc, if_neg hc]
        omega
  | cons y ys ih =>
      simp only [List.cons_append, List.foldr_cons, ih]
      omega

theorem perturb_agg_sum (db : DB) (ids : List Nat) (g : AggRow)
    (pre post : List AggRow) (hsplit : db.aggregates = pre ++ g :: post)
    (k : AggKey) :
    agSum { db with aggregates := pre ++ { g with count := g.count + 1 } :: post }
        ids k =
      agSum db ids k + (if g.user_id ∈ ids ∧ aggKeyOf g = k then 1 else 0) := by
  unfold agSum
  rw [hsplit]
  exact agRowsSum_bump ids k g pre post

/-- **C8**: the per-day reconciliation check records a mismatch for a key
exactly when the summed `UsageEvent.amount` under that key differs from the
stored `DailyAggregate` mass (absent keys counting as 0); on consistent data
it reports zero aggregate mismatches, and bumping one aggregate row by `+1`
on otherwise consistent data yields exactly one mismatch.  `reconcile`
consumes the store and produces only a report, so it can modify no row. -/
theorem reconcile_perday_aggregate_check (db : DB) :
    (∀ k, k ∈ aggregateMismatchKeys db (db.users.map (fun u => u.id)) ↔
      evSum db (db.users.map (fun u => u.id)) k ≠
        agSum db (db.users.map (fun u => u.id)) k) ∧
    ((∀ k, evSum db (db.users.map (fun u => u.id)) k =
        agSum db (db.users.map (fun u => u.id)) k) →
      (reconcile db none).aggregate_mismatch_count = 0) ∧
    (∀ g pre post, db.aggregates = pre ++ g :: post →
      g.user_id ∈ db.users.map (fun u => u.id) →
      (∀ k, evSum db (db.users.map (fun u => u.id)) k =
        agSum db (db.users.map (fun u => u.id)) k) →
      (reconcile
        { db with aggregates := pre ++ { g with count := g.count + 1 } :: post }
        none).aggregate_mismatch_count = 1) := by
  refine ⟨fun k => mem_aggregateMismatchKeys_iff db _ k, ?_, ?_⟩
  · intro h
    rw [reconcile_agg_count]
    have hnil : aggregateMismatchKeys db
        ((reconUsers db none).map (fun u => u.id)) = [] := by
      unfold aggregateMismatchKeys
      rw [List.filter_eq_nil_iff]
      intro k _ hp
      rw [decide_eq_true_eq] at hp
      exact hp (h k)
    rw [hnil]
    rfl
  · intro g pre post hsplit huid hcons
    rw [reconcile_agg_count]
    show ((reconKeys
      { db with aggregates := pre ++ { g with count := g.count + 1 } :: post }
      (db.users.map (fun u => u.id))).filter (fun k => decide (evSum
        { db with aggregates := pre ++ { g with count := g.count + 1 } :: post }
        (db.users.map (fun u => u.id)) k ≠ agSum
        { db with aggregates := pre ++ { g with count := g.count + 1 } :: post }
        (db.users.map (fun u => u.id)) k))).length = 1
    refine length_filter_eq_one_of_nodup _ _ (List.nodup_dedup _) (aggKeyOf g)
      ?_ ?_
    · intro k
      rw [decide_eq_true_eq]
      have hag := perturb_agg_sum db (db.users.map (fun u => u.id)) g pre post
        hsplit k
      have hev : evSum
          { db with aggregates := pre ++ { g with count := g.count + 1 } :: post }
          (db.users.map (fun u => u.id)) k =
          evSum db (db.users.map (fun u => u.id)) k := rfl
      rw [hev, hag, ← hcons k]
      constructor
      · intro hne
        by_contra hkk
        apply hne
        rw [if_neg (fun hc => hkk hc.2.symm)]
        omega
      · intro hkk
        subst hkk
        rw [if_pos ⟨huid, rfl⟩]
        omega
    · apply (mem_reconKeys_iff _ _ _).mpr
      refine Or.inr ⟨{ g with count := g.count + 1 }, ?_, huid, rfl⟩
      exact List.mem_append_right _ (List.mem_cons_self _ _)

/-- A consistent aggregate row: no events, count 0. -/
def wAgg0 : AggRow := ⟨100, 1, "chat", "success", 0, ⟨100, 5⟩⟩

/-- A consistent store for reconciliation: one user, no events, one aggregate
row of mass 0. -/
def wDbRecon : DB := ⟨[wAlice], [], [wAgg0], [], 10, 20⟩

/-- Witness for C8: the consistent store reports zero aggregate mismatches;
bumping its single aggregate row by `+1` yields exactly one. -/
theorem reconcile_perday_aggregate_check_witness :
    (reconcile wDbRecon none).aggregate_mismatch_count = 0 ∧
    (reconcile { wDbRecon with
      aggregates := [] ++ { wAgg0 with count := wAgg0.count + 1 } :: [] }
      none).aggregate_mismatch_count = 1 := by
  have hcons : ∀ k, evSum wDbRecon (wDbRecon.users.map (fun u => u.id)) k =
      agSum wDbRecon (wDbRecon.users.map (fun u => u.id)) k := by
    intro k
    simp [evSum, agSum, wDbRecon, wAgg0]
  have h := reconcile_perday_aggregate_check wDbRecon
  exact ⟨h.2.1 hcons, h.2.2 wAgg0 [] [] rfl (by decide) hcons⟩

end Mochat
